import Mathlib

/-!
Verification of the version-selection gate of the foundationdb C wrapper.

The repository ships a header `src/include/fdbc_wrapper.h` that pins the
compile-time API version (`#define FDB_API_VERSION 600`) and declares the
single entry point `fdb_error_t select_api_version(int runtime_version)`,
a plain-function wrapper around the native library's function-like
version-selection macro.  The wrapper's body and the native library are not
part of `src/`, so the gate's behaviour is modelled here from the
specification's description of the version gate (validate-and-commit-once,
guarded by a mutual-exclusion primitive).
-/

deriving instance DecidableEq for Except

/-- The compile-time API version ceiling, from `#define FDB_API_VERSION 600`
in src/include/fdbc_wrapper.h. -/
def FDB_API_VERSION : Int := 600

/-- Modelled from the spec: the error taxonomy of the version gate
(`UnsupportedVersion`, `AlreadySelectedDifferentVersion`,
`NativeLinkageError`); the wrapper's own source only declares the
`fdb_error_t` return type. -/
inductive ErrorKind where
  | UnsupportedVersion
  | AlreadySelectedDifferentVersion
  | NativeLinkageError
deriving DecidableEq, Repr

/-- Modelled from the spec: the process-wide singleton tracking whether a
version has been selected; this state lives inside the native library and
is not visible in the header under src/. -/
inductive ProcessVersionState where
  | unselected
  | selected (v : Int)
deriving DecidableEq, Repr

/-- Modelled from the spec: the linked native library, characterised by the
inclusive range of versions it supports (a library-defined lower bound and
a compile-time-fixed upper bound) and whether its linkage is intact. -/
structure NativeLib where
  minSupported : Int
  maxSupported : Int
  linkageOk : Bool
deriving DecidableEq, Repr

/-- Modelled from the spec: the native library's own validation of a
requested version.  If the native call cannot execute at all the outcome is
`NativeLinkageError`; otherwise a version outside the supported range is
rejected with `UnsupportedVersion`, and a version inside it is accepted. -/
def nativeRegister (lib : NativeLib) (v : Int) : Except ErrorKind Unit :=
  if lib.linkageOk then
    if v < lib.minSupported ∨ lib.maxSupported < v then
      .error .UnsupportedVersion
    else
      .ok ()
  else
    .error .NativeLinkageError

/-- The outcome of one call through the gate: the result reported to the
caller, the process version state afterwards, and how many registration
calls against the native library this call performed. -/
structure GateResult where
  result : Except ErrorKind Unit
  state : ProcessVersionState
  attempts : Nat
deriving DecidableEq, Repr

/-- Modelled from the spec: the version gate behind
`select_api_version(int)` from src/include/fdbc_wrapper.h.  If a version is
already selected, succeed silently exactly when the request matches it and
otherwise fail with `AlreadySelectedDifferentVersion`, without touching the
native library; if unselected, attempt registration with the native
library, committing the state on acceptance and leaving it unselected on
rejection.  The wrapper itself performs no validation of its `int`
argument. -/
def select_api_version (lib : NativeLib) (requested : Int)
    (st : ProcessVersionState) : GateResult :=
  match st with
  | .selected v =>
      if requested = v then
        { result := .ok (), state := st, attempts := 0 }
      else
        { result := .error .AlreadySelectedDifferentVersion, state := st,
          attempts := 0 }
  | .unselected =>
      match nativeRegister lib requested with
      | .ok _ =>
          { result := .ok (), state := .selected requested, attempts := 1 }
      | .error e =>
          { result := .error e, state := .unselected, attempts := 1 }

/-- Run a sequence of calls through the gate, returning the list of
per-call results and the final process version state. -/
def runGate (lib : NativeLib) : List Int → ProcessVersionState →
    List (Except ErrorKind Unit) × ProcessVersionState
  | [], st => ([], st)
  | r :: rs, st =>
      let g := select_api_version lib r st
      let rest := runGate lib rs g.state
      (g.result :: rest.1, rest.2)

/-- Number of calls in a run that successfully register a version with the
native library, i.e. that move the state from unselected to selected. -/
def regCount (lib : NativeLib) : List Int → ProcessVersionState → Nat
  | [], _ => 0
  | r :: rs, st =>
      let g := select_api_version lib r st
      (if st = .unselected ∧ g.state ≠ .unselected then 1 else 0) +
        regCount lib rs g.state

/-- Total number of native registration calls performed over a run. -/
def attemptCount (lib : NativeLib) : List Int → ProcessVersionState → Nat
  | [], _ => 0
  | r :: rs, st =>
      let g := select_api_version lib r st
      g.attempts + attemptCount lib rs g.state

theorem select_on_selected (lib : NativeLib) (r v : Int) :
    select_api_version lib r (.selected v) =
      if r = v then
        { result := .ok (), state := .selected v, attempts := 0 }
      else
        { result := .error .AlreadySelectedDifferentVersion,
          state := .selected v, attempts := 0 } := by
  simp [select_api_version]

theorem runGate_on_selected (lib : NativeLib) (rs : List Int) (v : Int) :
    (runGate lib rs (.selected v)).2 = .selected v := by
  induction rs with
  | nil => rfl
  | cons r rs ih =>
      by_cases h : r = v <;>
        simp [runGate, select_on_selected, h, ih]

theorem regCount_on_selected (lib : NativeLib) (rs : List Int) (v : Int) :
    regCount lib rs (.selected v) = 0 := by
  induction rs with
  | nil => rfl
  | cons r rs ih =>
      by_cases h : r = v <;>
        simp [regCount, select_on_selected, h, ih]

theorem nativeRegister_ok (lib : NativeLib) (v : Int)
    (hok : lib.linkageOk = true) (hlo : lib.minSupported ≤ v)
    (hhi : v ≤ lib.maxSupported) : nativeRegister lib v = .ok () := by
  have h : ¬ (v < lib.minSupported ∨ lib.maxSupported < v) := by omega
  simp [nativeRegister, hok, h]

theorem nativeRegister_le_of_ok (lib : NativeLib) (r : Int)
    (h : nativeRegister lib r = .ok ()) : r ≤ lib.maxSupported := by
  by_cases hc : r ≤ lib.maxSupported
  · exact hc
  · exfalso
    have hout : r < lib.minSupported ∨ lib.maxSupported < r := by omega
    by_cases hl : lib.linkageOk <;> simp [nativeRegister, hl, hout] at h

theorem regCount_from_unselected (lib : NativeLib) (reqs : List Int) :
    regCount lib reqs .unselected ≤ 1 := by
  induction reqs with
  | nil => simp [regCount]
  | cons r rs ih =>
      unfold regCount
      cases hn : nativeRegister lib r with
      | ok u => simp [select_api_version, hn, regCount_on_selected]
      | error e => simpa [select_api_version, hn] using ih

theorem runGate_replicate_selected (lib : NativeLib) (v : Int) (n : Nat) :
    (runGate lib (List.replicate n v) (.selected v)).1 =
      List.replicate n (Except.ok ()) := by
  induction n with
  | zero => rfl
  | succ n ih => simp [List.replicate_succ, runGate, select_on_selected, ih]

theorem select_state_bounded (lib : NativeLib) (r : Int)
    (st : ProcessVersionState)
    (hst : st = .unselected ∨
      ∃ v, st = .selected v ∧ v ≤ lib.maxSupported) :
    (select_api_version lib r st).state = .unselected ∨
    ∃ v, (select_api_version lib r st).state = .selected v ∧
      v ≤ lib.maxSupported := by
  rcases hst with h | ⟨v, h, hv⟩
  · subst h
    cases hn : nativeRegister lib r with
    | ok u =>
        cases u
        exact Or.inr ⟨r, by simp [select_api_version, hn],
          nativeRegister_le_of_ok lib r hn⟩
    | error e => exact Or.inl (by simp [select_api_version, hn])
  · subst h
    refine Or.inr ⟨v, ?_, hv⟩
    by_cases hrv : r = v <;> simp [select_on_selected, hrv]

theorem runGate_state_le (lib : NativeLib) (reqs : List Int)
    (st : ProcessVersionState)
    (hst : st = .unselected ∨
      ∃ v, st = .selected v ∧ v ≤ lib.maxSupported) :
    (runGate lib reqs st).2 = .unselected ∨
    ∃ v, (runGate lib reqs st).2 = .selected v ∧
      v ≤ lib.maxSupported := by
  induction reqs generalizing st with
  | nil => simpa [runGate] using hst
  | cons r rs ih =>
      simp only [runGate]
      exact ih _ (select_state_bounded lib r st hst)

/-- C1: over any sequence of calls in one process, at most one call
successfully registers a version with the native library; once a version v
is selected the state stays `selected v` for the rest of the run; a call
against an already-selected state performs no native registration call at
all (its only possible side effect), while a call from the unselected
state performs exactly one. -/
theorem select_api_version_single_registration (lib : NativeLib)
    (reqs tail : List Int) (v r : Int) :
    regCount lib reqs .unselected ≤ 1 ∧
    (runGate lib tail (.selected v)).2 = .selected v ∧
    (select_api_version lib r (.selected v)).attempts = 0 ∧
    (select_api_version lib r (.selected v)).state = .selected v ∧
    (select_api_version lib r .unselected).attempts = 1 := by
  refine ⟨regCount_from_unselected lib reqs,
    runGate_on_selected lib tail v, ?_, ?_, ?_⟩
  · by_cases h : r = v <;> simp [select_on_selected, h]
  · by_cases h : r = v <;> simp [select_on_selected, h]
  · cases hn : nativeRegister lib r <;> simp [select_api_version, hn]

/-- C2: when the state is already `selected v`, a call with request r
succeeds if and only if r = v, otherwise it fails with
`AlreadySelectedDifferentVersion`; either way no native registration is
attempted and the state is unchanged. -/
theorem select_api_version_already_selected (lib : NativeLib) (r v : Int) :
    ((select_api_version lib r (.selected v)).result = .ok () ↔ r = v) ∧
    (select_api_version lib r (.selected v)).result =
      (if r = v then .ok ()
       else .error .AlreadySelectedDifferentVersion) ∧
    (select_api_version lib r (.selected v)).attempts = 0 ∧
    (select_api_version lib r (.selected v)).state = .selected v := by
  by_cases h : r = v <;> simp [select_on_selected, h]

/-- C3: for a version v inside the supported range of a correctly linked
native library, the first call from the fresh (unselected) state succeeds
and every subsequent call with the same v also succeeds. -/
theorem select_api_version_idempotent (lib : NativeLib) (v : Int) (n : Nat)
    (hok : lib.linkageOk = true) (hlo : lib.minSupported ≤ v)
    (hhi : v ≤ lib.maxSupported) :
    (runGate lib (List.replicate (n + 1) v) .unselected).1 =
      List.replicate (n + 1) (Except.ok ()) := by
  have hn := nativeRegister_ok lib v hok hlo hhi
  simp [List.replicate_succ, runGate, select_api_version, hn,
    runGate_replicate_selected]

theorem select_api_version_idempotent_witness :
    (runGate ⟨13, 730, true⟩ (List.replicate 3 600) .unselected).1 =
      List.replicate 3 (Except.ok ()) :=
  select_api_version_idempotent ⟨13, 730, true⟩ 600 2 (by decide)
    (by decide) (by decide)

/-- C4: for valid versions v1 ≠ v2, calling the gate with v1 and then v2
in the same process makes the first call succeed and the second fail with
`AlreadySelectedDifferentVersion`. -/
theorem select_api_version_second_version_fails (lib : NativeLib)
    (v1 v2 : Int) (hok : lib.linkageOk = true)
    (hlo1 : lib.minSupported ≤ v1) (hhi1 : v1 ≤ lib.maxSupported)
    (hlo2 : lib.minSupported ≤ v2) (hhi2 : v2 ≤ lib.maxSupported)
    (hne : v1 ≠ v2) :
    (runGate lib [v1, v2] .unselected).1 =
      [Except.ok (), Except.error .AlreadySelectedDifferentVersion] := by
  have h1 := nativeRegister_ok lib v1 hok hlo1 hhi1
  have e1 : select_api_version lib v1 .unselected =
      { result := .ok (), state := .selected v1, attempts := 1 } := by
    simp [select_api_version, h1]
  simp [runGate, e1, select_on_selected, Ne.symm hne]

theorem select_api_version_second_version_fails_witness :
    (runGate ⟨13, 730, true⟩ [600, 610] .unselected).1 =
      [Except.ok (), Except.error .AlreadySelectedDifferentVersion] :=
  select_api_version_second_version_fails ⟨13, 730, true⟩ 600 610
    (by decide) (by decide) (by decide) (by decide) (by decide) (by decide)

/-- C5: a version outside the supported range fails with
`UnsupportedVersion` and leaves the state unselected, so a later call with
a valid version still succeeds. -/
theorem select_api_version_unsupported (lib : NativeLib) (v w : Int)
    (hok : lib.linkageOk = true)
    (hout : v < lib.minSupported ∨ lib.maxSupported < v)
    (hlo : lib.minSupported ≤ w) (hhi : w ≤ lib.maxSupported) :
    select_api_version lib v .unselected =
      { result := .error .UnsupportedVersion, state := .unselected,
        attempts := 1 } ∧
    (runGate lib [v, w] .unselected).1 =
      [Except.error .UnsupportedVersion, Except.ok ()] := by
  have hn : nativeRegister lib v = .error .UnsupportedVersion := by
    simp [nativeRegister, hok, hout]
  have hw := nativeRegister_ok lib w hok hlo hhi
  constructor
  · simp [select_api_version, hn]
  · simp [runGate, select_api_version, hn, hw]

theorem select_api_version_unsupported_witness :
    select_api_version ⟨13, 730, true⟩ 5 .unselected =
      { result := .error .UnsupportedVersion, state := .unselected,
        attempts := 1 } ∧
    (runGate ⟨13, 730, true⟩ [5, 600] .unselected).1 =
      [Except.error .UnsupportedVersion, Except.ok ()] :=
  select_api_version_unsupported ⟨13, 730, true⟩ 5 600 (by decide)
    (by decide) (by decide) (by decide)

/-- C6: every call returns synchronously either a success marker or one of
exactly the three error kinds `UnsupportedVersion`,
`AlreadySelectedDifferentVersion`, `NativeLinkageError`. -/
theorem select_api_version_result_taxonomy (lib : NativeLib) (r : Int)
    (st : ProcessVersionState) :
    (select_api_version lib r st).result = .ok () ∨
    (select_api_version lib r st).result = .error .UnsupportedVersion ∨
    (select_api_version lib r st).result =
      .error .AlreadySelectedDifferentVersion ∨
    (select_api_version lib r st).result = .error .NativeLinkageError := by
  cases st with
  | selected v => by_cases h : r = v <;> simp [select_on_selected, h]
  | unselected =>
      cases hn : nativeRegister lib r with
      | ok u => simp [select_api_version, hn]
      | error e => cases e <;> simp [select_api_version, hn]

/-- C7: with supported range [13, 730], selecting 600 succeeds, selecting
600 again also succeeds, a later 610 fails with
`AlreadySelectedDifferentVersion`, and 5 in a fresh process fails with
`UnsupportedVersion`. -/
theorem select_api_version_example_range :
    (select_api_version ⟨13, 730, true⟩ 600 .unselected).result =
      .ok () ∧
    (runGate ⟨13, 730, true⟩ [600, 600] .unselected).1 =
      [Except.ok (), Except.ok ()] ∧
    (runGate ⟨13, 730, true⟩ [600, 600, 610] .unselected).1 =
      [Except.ok (), Except.ok (),
        Except.error .AlreadySelectedDifferentVersion] ∧
    (select_api_version ⟨13, 730, true⟩ 5 .unselected).result =
      .error .UnsupportedVersion := by
  decide

/-- C9: the wrapper accepts any value of C type int, including zero and
negative integers, and performs no range or positivity validation of its
own: from the unselected state the native registration call is still made
(exactly one attempt) and the reported result is exactly the native
library's verdict, which for a non-positive request against a library with
a positive lower bound is `UnsupportedVersion`. -/
theorem select_api_version_no_wrapper_validation (lib : NativeLib)
    (r : Int) (hr : r ≤ 0) (hok : lib.linkageOk = true)
    (hmin : 1 ≤ lib.minSupported) :
    (select_api_version lib r .unselected).attempts = 1 ∧
    (select_api_version lib r .unselected).result = nativeRegister lib r ∧
    nativeRegister lib r = .error .UnsupportedVersion := by
  have hout : r < lib.minSupported ∨ lib.maxSupported < r := by omega
  have hn : nativeRegister lib r = .error .UnsupportedVersion := by
    simp [nativeRegister, hok, hout]
  simp [select_api_version, hn]

theorem select_api_version_no_wrapper_validation_witness :
    (select_api_version ⟨13, 730, true⟩ (-7) .unselected).attempts = 1 ∧
    (select_api_version ⟨13, 730, true⟩ (-7) .unselected).result =
      nativeRegister ⟨13, 730, true⟩ (-7) ∧
    nativeRegister ⟨13, 730, true⟩ (-7) =
      .error .UnsupportedVersion :=
  select_api_version_no_wrapper_validation ⟨13, 730, true⟩ (-7)
    (by decide) (by decide) (by decide)

/-- C10: with the compile-time ceiling pinned to `FDB_API_VERSION = 600`
by the header, any request strictly greater than 600 fails no matter what
sequence of calls preceded it, while 600 itself can be selected
successfully, so 600 is the maximum selectable version in this build. -/
theorem fdb_api_version_ceiling (lib : NativeLib)
    (hmax : lib.maxSupported = FDB_API_VERSION)
    (hok : lib.linkageOk = true)
    (hmin : lib.minSupported ≤ FDB_API_VERSION)
    (reqs : List Int) (r : Int) (hr : FDB_API_VERSION < r) :
    (∃ e, (select_api_version lib r
        (runGate lib reqs .unselected).2).result = .error e) ∧
    (select_api_version lib FDB_API_VERSION .unselected).result =
      .ok () := by
  constructor
  · rcases runGate_state_le lib reqs .unselected (Or.inl rfl) with
      h | ⟨v, h, hv⟩
    · rw [h]
      have hout : r < lib.minSupported ∨ lib.maxSupported < r := by
        right; omega
      have hn : nativeRegister lib r = .error .UnsupportedVersion := by
        simp [nativeRegister, hok, hout]
      exact ⟨.UnsupportedVersion, by simp [select_api_version, hn]⟩
    · rw [h]
      have hrv : r ≠ v := by omega
      exact ⟨.AlreadySelectedDifferentVersion,
        by simp [select_on_selected, hrv]⟩
  · have hn := nativeRegister_ok lib FDB_API_VERSION hok hmin
      (le_of_eq hmax.symm)
    simp [select_api_version, hn]

/-- Modelled from the spec: the phase of one thread executing a call to the
gate.  A thread starts outside the critical section, enters it by
acquiring the mutual-exclusion primitive, may move on to attempting a
native registration after observing the state unselected, and finishes
with the result reported to its caller. -/
inductive TPhase where
  | start
  | inCS
  | registering
  | done (r : Except ErrorKind Unit)
deriving DecidableEq, Repr

/-- Modelled from the spec: the shared configuration of n threads racing
through the gate: the holder of the mutual-exclusion primitive, each
thread's phase, the process version state, and a counter of native
registration attempts made so far. -/
structure Config (n : Nat) where
  lock : Option (Fin n)
  pcs : Fin n → TPhase
  vstate : ProcessVersionState
  attempts : Nat

/-- Modelled from the spec: one interleaving step.  Thread i acquires the
free lock; inside the critical section it observes the version state,
either resolving immediately against an already-selected version or moving
on to a native registration attempt; the registration resolves against the
native library, commits the state on acceptance, and releases the lock. -/
inductive Step (lib : NativeLib) {n : Nat} (req : Fin n → Int) :
    Config n → Config n → Prop where
  | acquire (c : Config n) (i : Fin n) (hpc : c.pcs i = .start)
      (hl : c.lock = none) :
      Step lib req c
        { c with lock := some i, pcs := Function.update c.pcs i .inCS }
  | observeSel (c : Config n) (i : Fin n) (v : Int) (hpc : c.pcs i = .inCS)
      (hl : c.lock = some i) (hv : c.vstate = .selected v) :
      Step lib req c
        { c with
          lock := none,
          pcs := Function.update c.pcs i
            (.done (if req i = v then .ok ()
              else .error .AlreadySelectedDifferentVersion)) }
  | observeUnsel (c : Config n) (i : Fin n) (hpc : c.pcs i = .inCS)
      (hl : c.lock = some i) (hv : c.vstate = .unselected) :
      Step lib req c
        { c with pcs := Function.update c.pcs i .registering }
  | registerOk (c : Config n) (i : Fin n) (hpc : c.pcs i = .registering)
      (hl : c.lock = some i) (hn : nativeRegister lib (req i) = .ok ()) :
      Step lib req c
        { c with
          lock := none,
          vstate := .selected (req i),
          attempts := c.attempts + 1,
          pcs := Function.update c.pcs i (.done (.ok ())) }
  | registerErr (c : Config n) (i : Fin n) (e : ErrorKind)
      (hpc : c.pcs i = .registering) (hl : c.lock = some i)
      (hn : nativeRegister lib (req i) = .error e) :
      Step lib req c
        { c with
          lock := none,
          attempts := c.attempts + 1,
          pcs := Function.update c.pcs i (.done (.error e)) }

/-- The initial configuration: lock free, every thread outside the
critical section, no version selected, no registration attempted. -/
def initConfig (n : Nat) : Config n :=
  { lock := none, pcs := fun _ => .start, vstate := .unselected,
    attempts := 0 }

/-- Configurations reachable from the initial one by interleaving steps. -/
def Reachable (lib : NativeLib) {n : Nat} (req : Fin n → Int)
    (c : Config n) : Prop :=
  Relation.ReflTransGen (Step lib req) (initConfig n) c

/-- The inductive invariant: only the lock holder is inside the critical
section; a registration in flight means the state is still unselected; the
attempt counter is 0 while unselected and 1 once selected (for requests
the native library accepts). -/
def GateInv (lib : NativeLib) {n : Nat} (req : Fin n → Int)
    (c : Config n) : Prop :=
  (∀ i, c.pcs i = .inCS ∨ c.pcs i = .registering → c.lock = some i) ∧
  ((∃ i, c.pcs i = .registering) → c.vstate = .unselected) ∧
  (c.vstate = .unselected → c.attempts = 0) ∧
  (∀ v, c.vstate = .selected v → c.attempts = 1 ∧ ∃ i, req i = v)

theorem gateInv_init (lib : NativeLib) {n : Nat} (req : Fin n → Int) :
    GateInv lib req (initConfig n) := by
  refine ⟨fun i h => ?_, fun h => rfl, fun _ => rfl, fun v hv => ?_⟩
  · rcases h with h | h <;> simp [initConfig] at h
  · simp [initConfig] at hv

theorem update_eq_cases {n : Nat} (f : Fin n → TPhase) (i j : Fin n)
    (x p : TPhase) (h : Function.update f i x j = p) :
    (j = i ∧ x = p) ∨ (j ≠ i ∧ f j = p) := by
  by_cases hij : j = i
  · subst hij
    rw [Function.update_same] at h
    exact Or.inl ⟨rfl, h⟩
  · rw [Function.update_noteq hij] at h
    exact Or.inr ⟨hij, h⟩

theorem gateInv_step (lib : NativeLib) {n : Nat} (req : Fin n → Int)
    (hvalid : ∀ i, nativeRegister lib (req i) = .ok ())
    (c d : Config n) (hstep : Step lib req c d) (hinv : GateInv lib req c) :
    GateInv lib req d := by
  obtain ⟨hmux, hreg, hun, hsel⟩ := hinv
  cases hstep with
  | acquire i hpc hl =>
      refine ⟨fun j hj => ?_, fun hj => ?_, hun, hsel⟩
      · show some i = some j
        rcases hj with hj | hj <;>
          rcases update_eq_cases c.pcs i j _ _ hj with ⟨hij, hx⟩ | ⟨hij, hj2⟩
        · rw [hij]
        · rw [hmux j (Or.inl hj2)] at hl
          exact absurd hl (by simp)
        · exact absurd hx (by simp)
        · rw [hmux j (Or.inr hj2)] at hl
          exact absurd hl (by simp)
      · show c.vstate = .unselected
        obtain ⟨j, hj⟩ := hj
        rcases update_eq_cases c.pcs i j _ _ hj with ⟨hij, hx⟩ | ⟨hij, hj2⟩
        · exact absurd hx (by simp)
        · exact hreg ⟨j, hj2⟩
  | observeSel i v hpc hl hv =>
      refine ⟨fun j hj => ?_, fun hj => ?_, hun, hsel⟩
      · show (none : Option (Fin n)) = some j
        rcases hj with hj | hj <;>
          rcases update_eq_cases c.pcs i j _ _ hj with ⟨hij, hx⟩ | ⟨hij, hj2⟩
        · exact absurd hx (by simp)
        · rw [hmux j (Or.inl hj2)] at hl
          exact absurd (Option.some_injective _ hl) hij
        · exact absurd hx (by simp)
        · rw [hmux j (Or.inr hj2)] at hl
          exact absurd (Option.some_injective _ hl) hij
      · show c.vstate = .unselected
        obtain ⟨j, hj⟩ := hj
        rcases update_eq_cases c.pcs i j _ _ hj with ⟨hij, hx⟩ | ⟨hij, hj2⟩
        · exact absurd hx (by simp)
        · exact hreg ⟨j, hj2⟩
  | observeUnsel i hpc hl hv =>
      refine ⟨fun j hj => ?_, fun _ => hv, hun, hsel⟩
      · show c.lock = some j
        rcases hj with hj | hj <;>
          rcases update_eq_cases c.pcs i j _ _ hj with ⟨hij, hx⟩ | ⟨hij, hj2⟩
        · exact absurd hx (by simp)
        · exact hmux j (Or.inl hj2)
        · rw [hij]
          exact hl
        · exact hmux j (Or.inr hj2)
  | registerOk i hpc hl hn =>
      have hu : c.vstate = .unselected := hreg ⟨i, hpc⟩
      have ha : c.attempts = 0 := hun hu
      refine ⟨fun j hj => ?_, fun hj => ?_, fun hv => ?_, fun v hv => ?_⟩
      · show (none : Option (Fin n)) = some j
        rcases hj with hj | hj <;>
          rcases update_eq_cases c.pcs i j _ _ hj with ⟨hij, hx⟩ | ⟨hij, hj2⟩
        · exact absurd hx (by simp)
        · rw [hmux j (Or.inl hj2)] at hl
          exact absurd (Option.some_injective _ hl) hij
        · exact absurd hx (by simp)
        · rw [hmux j (Or.inr hj2)] at hl
          exact absurd (Option.some_injective _ hl) hij
      · show ProcessVersionState.selected (req i) = .unselected
        obtain ⟨j, hj⟩ := hj
        rcases update_eq_cases c.pcs i j _ _ hj with ⟨hij, hx⟩ | ⟨hij, hj2⟩
        · exact absurd hx (by simp)
        · rw [hmux j (Or.inr hj2)] at hl
          exact absurd (Option.some_injective _ hl) hij
      · exact absurd
          (show ProcessVersionState.selected (req i) =
            ProcessVersionState.unselected from hv) (by simp)
      · have hrv : req i = v :=
          ProcessVersionState.selected.inj
            (show ProcessVersionState.selected (req i) =
              ProcessVersionState.selected v from hv)
        refine ⟨?_, ⟨i, hrv⟩⟩
        show c.attempts + 1 = 1
        rw [ha]
  | registerErr i e hpc hl hn =>
      exact absurd hn (by simp [hvalid i])

theorem gateInv_reachable (lib : NativeLib) {n : Nat} (req : Fin n → Int)
    (hvalid : ∀ i, nativeRegister lib (req i) = .ok ())
    (c : Config n) (hc : Reachable lib req c) : GateInv lib req c := by
  induction hc with
  | refl => exact gateInv_init lib req
  | tail _ hstep ih => exact gateInv_step lib req hvalid _ _ hstep ih

/-- The mutual-exclusion invariant alone: only the lock holder can be
inside the critical section or attempting a registration.  Unlike
`GateInv`, this holds for every interleaving, whether or not the native
library accepts the requested versions. -/
def MutexInv {n : Nat} (c : Config n) : Prop :=
  ∀ i, c.pcs i = .inCS ∨ c.pcs i = .registering → c.lock = some i

theorem mutexInv_step (lib : NativeLib) {n : Nat} (req : Fin n → Int)
    (c d : Config n) (hstep : Step lib req c d) (hmux : MutexInv c) :
    MutexInv d := by
  cases hstep with
  | acquire i hpc hl =>
      intro j hj
      show some i = some j
      rcases hj with hj | hj <;>
        rcases update_eq_cases c.pcs i j _ _ hj with ⟨hij, hx⟩ | ⟨hij, hj2⟩
      · rw [hij]
      · rw [hmux j (Or.inl hj2)] at hl
        exact absurd hl (by simp)
      · exact absurd hx (by simp)
      · rw [hmux j (Or.inr hj2)] at hl
        exact absurd hl (by simp)
  | observeSel i v hpc hl hv =>
      intro j hj
      show (none : Option (Fin n)) = some j
      rcases hj with hj | hj <;>
        rcases update_eq_cases c.pcs i j _ _ hj with ⟨hij, hx⟩ | ⟨hij, hj2⟩
      · exact absurd hx (by simp)
      · rw [hmux j (Or.inl hj2)] at hl
        exact absurd (Option.some_injective _ hl) hij
      · exact absurd hx (by simp)
      · rw [hmux j (Or.inr hj2)] at hl
        exact absurd (Option.some_injective _ hl) hij
  | observeUnsel i hpc hl hv =>
      intro j hj
      show c.lock = some j
      rcases hj with hj | hj <;>
        rcases update_eq_cases c.pcs i j _ _ hj with ⟨hij, hx⟩ | ⟨hij, hj2⟩
      · exact absurd hx (by simp)
      · exact hmux j (Or.inl hj2)
      · rw [hij]
        exact hl
      · exact hmux j (Or.inr hj2)
  | registerOk i hpc hl hn =>
      intro j hj
      show (none : Option (Fin n)) = some j
      rcases hj with hj | hj <;>
        rcases update_eq_cases c.pcs i j _ _ hj with ⟨hij, hx⟩ | ⟨hij, hj2⟩
      · exact absurd hx (by simp)
      · rw [hmux j (Or.inl hj2)] at hl
        exact absurd (Option.some_injective _ hl) hij
      · exact absurd hx (by simp)
      · rw [hmux j (Or.inr hj2)] at hl
        exact absurd (Option.some_injective _ hl) hij
  | registerErr i e hpc hl hn =>
      intro j hj
      show (none : Option (Fin n)) = some j
      rcases hj with hj | hj <;>
        rcases update_eq_cases c.pcs i j _ _ hj with ⟨hij, hx⟩ | ⟨hij, hj2⟩
      · exact absurd hx (by simp)
      · rw [hmux j (Or.inl hj2)] at hl
        exact absurd (Option.some_injective _ hl) hij
      · exact absurd hx (by simp)
      · rw [hmux j (Or.inr hj2)] at hl
        exact absurd (Option.some_injective _ hl) hij

theorem mutexInv_reachable (lib : NativeLib) {n : Nat} (req : Fin n → Int)
    (c : Config n) (hc : Reachable lib req c) : MutexInv c := by
  induction hc with
  | refl =>
      intro i h
      rcases h with h | h <;> simp [initConfig] at h
  | tail _ hstep ih => exact mutexInv_step lib req _ _ hstep ih

/-- The configuration reached when two threads, one after the other, each
acquire the lock, observe the state unselected and have the out-of-range
request 5 rejected by the native library: both registrations were attempted
(serialized), so the attempt counter reads 2 and the state is still
unselected. -/
def twoFailedAttemptsConfig : Config 2 :=
  { lock := none,
    pcs := Function.update (Function.update (Function.update
      (Function.update (Function.update (Function.update
        (fun _ => TPhase.start) 0 .inCS) 0 .registering) 0
        (.done (.error .UnsupportedVersion))) 1 .inCS) 1 .registering) 1
        (.done (.error .UnsupportedVersion)),
    vstate := .unselected,
    attempts := 2 }

/-- C8 counterexample: an interleaving of two concurrent calls, both with
the out-of-range version 5 against a library supporting [13, 730], reaches
a configuration in which two registration attempts against the native
library have occurred, so "at most one registration attempt occurs" is
false over all interleavings (the two failed attempts are serialized, not
simultaneous). -/
theorem select_api_version_two_serialized_attempts :
    Reachable ⟨13, 730, true⟩ (fun _ : Fin 2 => (5 : Int))
      twoFailedAttemptsConfig ∧
    ¬ twoFailedAttemptsConfig.attempts ≤ 1 := by
  constructor
  · have h0 : Reachable ⟨13, 730, true⟩ (fun _ : Fin 2 => (5 : Int))
        (initConfig 2) := Relation.ReflTransGen.refl
    have h1 := Relation.ReflTransGen.tail h0
      (Step.acquire (initConfig 2) 0 rfl rfl)
    have h2 := Relation.ReflTransGen.tail h1
      (Step.observeUnsel _ 0 rfl rfl rfl)
    have h3 := Relation.ReflTransGen.tail h2
      (Step.registerErr _ 0 .UnsupportedVersion rfl rfl rfl)
    have h4 := Relation.ReflTransGen.tail h3
      (Step.acquire _ 1 rfl rfl)
    have h5 := Relation.ReflTransGen.tail h4
      (Step.observeUnsel _ 1 rfl rfl rfl)
    exact Relation.ReflTransGen.tail h5
      (Step.registerErr _ 1 .UnsupportedVersion rfl rfl rfl)
  · decide

/-- C8 (amended): in every interleaving of concurrent calls through the
mutex-guarded gate, no two distinct threads are simultaneously past the
observe-unselected point and attempting registration — the check-and-set
is mutually exclusive, unconditionally; and when the native library
accepts every requested version (so that the one attempt resolves to a
selection every other caller then observes), at most one registration
attempt against the native library ever occurs.  When the native library
rejects the requests, repeated attempts can occur, but only serialized,
one at a time. -/
theorem select_api_version_concurrent_mutual_exclusion (lib : NativeLib)
    {n : Nat} (req : Fin n → Int)
    (c : Config n) (hc : Reachable lib req c) :
    (∀ i j, c.pcs i = .registering → c.pcs j = .registering → i = j) ∧
    ((∀ i, nativeRegister lib (req i) = .ok ()) → c.attempts ≤ 1) := by
  constructor
  · intro i j hi hj
    have hmux := mutexInv_reachable lib req c hc
    have h1 := hmux i (Or.inr hi)
    have h2 := hmux j (Or.inr hj)
    rw [h1] at h2
    exact Option.some_injective _ h2
  · intro hvalid
    obtain ⟨hmux, hreg, hun, hsel⟩ := gateInv_reachable lib req hvalid c hc
    cases hv : c.vstate with
    | unselected => simp [hun hv]
    | selected v => simp [(hsel v hv).1]

/-- The configuration reached when a single thread drives the valid
request 600 through the gate to completion: lock released, version
committed, one registration attempt. -/
def oneSelectedConfig : Config 1 :=
  { lock := none,
    pcs := Function.update (Function.update (Function.update
      (fun _ => TPhase.start) 0 .inCS) 0 .registering) 0
      (.done (.ok ())),
    vstate := .selected 600,
    attempts := 1 }

theorem select_api_version_concurrent_mutual_exclusion_witness :
    ((∀ i j : Fin 1, oneSelectedConfig.pcs i = .registering →
        oneSelectedConfig.pcs j = .registering → i = j) ∧
      ((∀ i : Fin 1, nativeRegister ⟨13, 730, true⟩
          ((fun _ : Fin 1 => (600 : Int)) i) = .ok ()) →
        oneSelectedConfig.attempts ≤ 1)) :=
  select_api_version_concurrent_mutual_exclusion ⟨13, 730, true⟩
    (fun _ : Fin 1 => (600 : Int)) oneSelectedConfig
    (Relation.ReflTransGen.tail (Relation.ReflTransGen.tail
      (Relation.ReflTransGen.tail Relation.ReflTransGen.refl
        (Step.acquire (initConfig 1) 0 rfl rfl))
        (Step.observeUnsel _ 0 rfl rfl rfl))
        (Step.registerOk _ 0 rfl rfl rfl))

theorem fdb_api_version_ceiling_witness :
    (∃ e, (select_api_version ⟨13, 600, true⟩ 601
        (runGate ⟨13, 600, true⟩ [600] .unselected).2).result =
      .error e) ∧
    (select_api_version ⟨13, 600, true⟩ FDB_API_VERSION
      .unselected).result = .ok () :=
  fdb_api_version_ceiling ⟨13, 600, true⟩ rfl rfl (by decide) [600] 601
    (by decide)
